import Mathlib

/-!
Shallow embedding of the Config2Page server's authorization, user-update,
login and audit-log code, together with theorems checking the design
specification against it.

The embedded functions are translated from:
  - `src/server/middleware/auth.ts` (`checkUserPermissions`),
  - `src/server/routes/users.ts` (GET /users/:id, PUT /users/:id handlers),
  - `src/server/routes/auth.ts` (POST /auth/login handler),
  - `src/unnamed/part_004` (`logUserAction`, `logUserEdit`),
  - `src/unnamed/part_008` (GET /audit/logs handler).
External collaborators (bcrypt comparison/hashing, the database row store)
are passed in explicitly: the store is a list of records, bcrypt is an
opaque function parameter.
-/

namespace Config2Page

/-- The closed role enumeration from the user model
(`role IN ('admin','moderator','user')`). -/
inductive Role
  | admin
  | moderator
  | user
deriving DecidableEq, Repr

/-- A stored user row (`users` table): id, names, email, password hash, role.
Timestamps are irrelevant to every embedded function and omitted. -/
structure UserRec where
  id : Nat
  first_name : String
  last_name : String
  email : String
  password : String
  role : Role
deriving DecidableEq, Repr

/-- The password-less projection the routes return
(`select` without `password` / `userWithoutPassword`). -/
structure PublicUser where
  id : Nat
  first_name : String
  last_name : String
  email : String
  role : Role
deriving DecidableEq, Repr

def UserRec.toPublic (u : UserRec) : PublicUser :=
  ⟨u.id, u.first_name, u.last_name, u.email, u.role⟩

/-- The only two request methods `checkUserPermissions` distinguishes. -/
inductive Method
  | PUT
  | DELETE
deriving DecidableEq, Repr

/-- Outcome of the permission middleware: pass control on (`next()`), or
respond with a status code and message. -/
inductive MwResult
  | next
  | deny (status : Nat) (message : String)
deriving DecidableEq, Repr

/-- `prisma.user.findUnique({ where: { id } })`: the row with the given id
(ids are a primary key; on a well-formed store at most one row matches). -/
def findUser (db : List UserRec) (id : Nat) : Option UserRec :=
  db.find? (fun u => u.id == id)

/-- `checkUserPermissions` from `src/server/middleware/auth.ts` (the
database-backed variant, lines 85-141).  `db` stands for the store consulted
by `prisma.user.findUnique` in the moderator DELETE branch; `actor` is
`req.user`, `targetUserId` is `parseInt(req.params.id)`.  Note the final
fallback `deny 403` is what a moderator PUT on a non-self target reaches:
the moderator branch handles only DELETE and self-edit. -/
def checkUserPermissions (db : List UserRec) (actor : UserRec)
    (method : Method) (targetUserId : Nat) : MwResult :=
  if actor.role = Role.admin then
    if method = Method.DELETE ∧ actor.id = targetUserId then
      MwResult.deny 403 "Admins cannot delete their own account"
    else
      MwResult.next
  else if actor.role = Role.moderator then
    if method = Method.DELETE then
      match findUser db targetUserId with
      | none => MwResult.deny 404 "User not found"
      | some targetUser =>
        if targetUser.role ≠ Role.user then
          MwResult.deny 403 "Moderators can only delete basic users"
        else
          MwResult.next
    else if actor.id = targetUserId then
      MwResult.next
    else
      MwResult.deny 403 "Access denied"
  else if actor.role = Role.user then
    if actor.id ≠ targetUserId then
      MwResult.deny 403 "Access denied"
    else if method = Method.DELETE then
      MwResult.deny 403 "Basic users cannot delete accounts"
    else
      MwResult.next
  else
    MwResult.deny 403 "Access denied"

/-- The request body of PUT /users/:id (`req.body`): each field is absent or
a JS value.  `role` is kept at the `Role` type; an absent or empty role
string is `none`. -/
structure UpdateBody where
  first_name : Option String := none
  last_name : Option String := none
  email : Option String := none
  role : Option Role := none
  password : Option String := none
deriving Repr

/-- JS truthiness of an optional string field (`if (first_name) ...`):
absent and the empty string are falsy. -/
def truthy : Option String → Bool
  | none => false
  | some s => !s.isEmpty

/-- The `updates` object the PUT handler accumulates before calling
`prisma.user.update`: only the present keys are written. -/
structure Updates where
  first_name : Option String := none
  last_name : Option String := none
  email : Option String := none
  role : Option Role := none
  password : Option String := none
deriving Repr

/-- Applying the accumulated `updates` object to the stored row
(`prisma.user.update({ where: { id }, data: updates })`). -/
def applyUpdates (u : UserRec) (upd : Updates) : UserRec :=
  { u with
    first_name := upd.first_name.getD u.first_name
    last_name := upd.last_name.getD u.last_name
    email := upd.email.getD u.email
    role := upd.role.getD u.role
    password := upd.password.getD u.password }

/-- The password rule from the PUT/POST handlers: at least 8 characters,
at least one ASCII lowercase and one ASCII uppercase letter
(`/[a-z]/`, `/[A-Z]/`). -/
def validPassword (p : String) : Bool :=
  decide (8 ≤ p.length) && p.any Char.isLower && p.any Char.isUpper

/-- Response of the PUT /users/:id handler: 200 with a message and the
updated (password-less) row, or an error status and message. -/
inductive PutResult
  | ok (message : String) (user : PublicUser)
  | err (status : Nat) (message : String)
deriving DecidableEq, Repr

/-- The PUT /users/:id handler body from `src/server/routes/users.ts`
(Prisma variant, lines 296-365), after `checkUserPermissions` has called
`next()`.  `hash` stands for `bcrypt.hash` (with its salt fixed), an
external collaborator.  Returns the response together with the store after
`prisma.user.update`. -/
def putUserHandler (hash : String → String) (db : List UserRec)
    (actor : UserRec) (targetId : Nat) (body : UpdateBody) :
    PutResult × List UserRec :=
  match findUser db targetId with
  | none => (PutResult.err 404 "User not found", db)
  | some existingUser =>
    if truthy body.email && !((body.email.getD "").contains '@') then
      (PutResult.err 400 "Invalid email format", db)
    else if truthy body.password && !validPassword (body.password.getD "") then
      (PutResult.err 400 "Password must be at least 8 characters long and contain both uppercase and lowercase letters", db)
    else
      let upd : Updates :=
        { first_name := if truthy body.first_name then body.first_name else none
          last_name := if truthy body.last_name then body.last_name else none
          email := if truthy body.email then body.email else none
          role :=
            if body.role.isSome
                && (decide (actor.role = Role.admin)
                    || (decide (actor.role = Role.moderator)
                        && decide (existingUser.role = Role.user))) then
              body.role
            else
              none
          password := if truthy body.password then body.password.map hash else none }
      let newUser := applyUpdates existingUser upd
      (PutResult.ok "User updated successfully" newUser.toPublic,
        db.map fun u => if u.id = targetId then newUser else u)

/-- The complete PUT /users/:id route: `authenticate` has already resolved
`actor` from the store, then `checkUserPermissions` runs, then the handler. -/
def putPipeline (hash : String → String) (db : List UserRec)
    (actor : UserRec) (targetId : Nat) (body : UpdateBody) :
    PutResult × List UserRec :=
  match checkUserPermissions db actor Method.PUT targetId with
  | MwResult.next => putUserHandler hash db actor targetId body
  | MwResult.deny s m => (PutResult.err s m, db)

/-- Response of GET /users/:id: the selected (password-less) row or an
error status and message. -/
inductive GetResult
  | ok (user : PublicUser)
  | err (status : Nat) (message : String)
deriving DecidableEq, Repr

/-- The GET /users/:id handler from `src/server/routes/users.ts` (Prisma
variant, lines 263-293): look the target up first, 404 when absent, then the
basic-user self-only permission check, then the row. -/
def getUserHandler (db : List UserRec) (actor : UserRec) (targetId : Nat) :
    GetResult :=
  match findUser db targetId with
  | none => GetResult.err 404 "User not found"
  | some u =>
    if actor.role = Role.user ∧ actor.id ≠ targetId then
      GetResult.err 403 "Access denied"
    else
      GetResult.ok u.toPublic

/-- Response of POST /auth/login: 200 with the password-less user, or a
failure status and message. -/
inductive LoginResult
  | success (message : String) (user : PublicUser)
  | failure (status : Nat) (message : String)
deriving DecidableEq, Repr

/-- `prisma.user.findUnique({ where: { email } })` (email is unique). -/
def findByEmail (db : List UserRec) (email : String) : Option UserRec :=
  db.find? (fun u => u.email == email)

/-- The POST /auth/login handler from `src/server/routes/auth.ts`
(lines 88-131).  `compare` stands for `bcrypt.compare`, an external
collaborator.  Token/cookie issuance is outside the embedded state. -/
def loginHandler (compare : String → String → Bool) (db : List UserRec)
    (email password : String) : LoginResult :=
  match findByEmail db email with
  | none => LoginResult.failure 401 "Invalid credentials"
  | some user =>
    if compare password user.password then
      LoginResult.success "Login successful" user.toPublic
    else
      LoginResult.failure 401 "Invalid credentials"

/-- A JS primitive value stored in a user-record field, as compared by the
diff in `logUserEdit` with `!==`. -/
inductive Value
  | str (s : String)
  | num (n : Int)
deriving DecidableEq, Repr

/-- One element of the `changes` array built by `logUserEdit`:
`{field, oldValue, newValue}`.  `oldValue` is `none` when the key is absent
from `oldData` (JS `undefined`). -/
structure FieldChange where
  field : String
  oldValue : Option Value
  newValue : Value
deriving DecidableEq, Repr

/-- The audit `metadata` JSON payload (schema-free in the source; only the
shapes the embedded writers produce are represented). -/
inductive Metadata
  | empty
  | changes (cs : List FieldChange)
deriving DecidableEq, Repr

/-- The data handed to `prisma.auditLog.create` by `logUserAction`
(`src/unnamed/part_004`); `id`/`created_at` are minted by the store. -/
structure AuditCreateData where
  actor_user_id : Nat
  action_type : String
  target_user_id : Option Nat
  metadata : Metadata
  ip_address : Option String
deriving DecidableEq, Repr

/-- `logUserAction` from `src/unnamed/part_004`: builds the row data
(`metadata: metadata || {}`). -/
def logUserAction (actorId : Nat) (actionType : String)
    (targetId : Option Nat) (metadata : Option Metadata)
    (ipAddress : Option String) : AuditCreateData :=
  ⟨actorId, actionType, targetId, metadata.getD Metadata.empty, ipAddress⟩

/-- The diff loop of `logUserEdit`: for each key of `newData` (JS objects
have pairwise-distinct keys, iterated in insertion order), push a change
when `oldData[key] !== newData[key]`. -/
def computeChanges (oldData newData : List (String × Value)) :
    List FieldChange :=
  newData.filterMap fun kv =>
    if oldData.lookup kv.1 = some kv.2 then
      none
    else
      some ⟨kv.1, oldData.lookup kv.1, kv.2⟩

/-- `logUserEdit` from `src/unnamed/part_004`: diff the pre-image and
post-image; write an EDIT_USER entry only when the change set is
non-empty (`if (changes.length > 0)`), otherwise write nothing. -/
def logUserEdit (actorId targetId : Nat)
    (oldData newData : List (String × Value)) (ipAddress : Option String) :
    Option AuditCreateData :=
  let changes := computeChanges oldData newData
  if changes.length > 0 then
    some (logUserAction actorId "EDIT_USER" (some targetId)
      (some (Metadata.changes changes)) ipAddress)
  else
    none

/-- A stored `audit_logs` row (`src/unnamed/part_007` migration):
serial id, actor, action type, optional target, metadata, optional ip,
creation timestamp (modelled as a natural number of clock ticks). -/
structure AuditEntry where
  id : Nat
  actor_user_id : Nat
  action_type : String
  target_user_id : Option Nat
  metadata : Metadata
  ip_address : Option String
  created_at : Nat
deriving DecidableEq, Repr

/-- The ordering the GET /audit/logs handler requests from the store:
`orderBy: { created_at: 'desc' }` and nothing else.  Rows with equal
`created_at` are not ordered further by the query. -/
def auditOrder (a b : AuditEntry) : Prop :=
  b.created_at ≤ a.created_at

instance : DecidableRel auditOrder :=
  fun a b => Nat.decLe b.created_at a.created_at

instance : IsTotal AuditEntry auditOrder :=
  ⟨fun a b => Nat.le_total b.created_at a.created_at⟩

instance : IsTrans AuditEntry auditOrder :=
  ⟨fun _ _ _ h1 h2 => Nat.le_trans h2 h1⟩

/-- The store's answer to `orderBy: { created_at: 'desc' }`: the rows in
descending `created_at` order.  The source supplies no secondary sort key,
so ties are returned in table (insertion) order; a stable sort models
this. -/
def sortByCreatedDesc (l : List AuditEntry) : List AuditEntry :=
  List.insertionSort auditOrder l

/-- The conjunctive `where` filter the handler builds:
`action_type` exact match, `created_at.gte = from`, `created_at.lte = to`. -/
def matchesFilters (fromTime toTime : Option Nat) (actionType : Option String)
    (e : AuditEntry) : Bool :=
  (match actionType with
   | none => true
   | some a => e.action_type == a)
  && (match fromTime with
      | none => true
      | some f => decide (f ≤ e.created_at))
  && (match toTime with
      | none => true
      | some t => decide (e.created_at ≤ t))

/-- `findMany({ ..., skip, take })`: Prisma rejects a negative `skip` with a
validation error (thrown before any row is returned); otherwise it drops
`skip` rows and returns the next `take`. -/
def prismaFindManyPage (l : List AuditEntry) (skip : Int) (take : Nat) :
    Except String (List AuditEntry) :=
  if skip < 0 then
    Except.error "validation error: skip must not be negative"
  else
    Except.ok ((l.drop skip.toNat).take take)

/-- The pagination block of the response:
`{ total, page, limit, pages }` with `pages = Math.ceil(total / limit)`. -/
structure AuditQueryResult where
  logs : List AuditEntry
  total : Nat
  page : Int
  limit : Nat
  pages : Nat
deriving DecidableEq, Repr

/-- Response of GET /audit/logs: the page, or the catch-all 500. -/
inductive AuditResponse
  | ok (r : AuditQueryResult)
  | serverError (status : Nat) (message : String)
deriving DecidableEq, Repr

/-- `Math.ceil(total / limit)` for a positive `limit` (every embedded call
has `limit ≥ 1`). -/
def ceilPages (total limit : Nat) : Nat :=
  (total + limit - 1) / limit

/-- The GET /audit/logs handler from `src/unnamed/part_008` (lines 74-123):
build the conjunctive filters, ask the store for the page of rows ordered
by `created_at` descending with `skip = (page-1)*limit`, count the total,
and report `pages = Math.ceil(total/limit)`.  Any thrown store error is
caught and answered with 500. -/
def getAuditLogs (db : List AuditEntry) (fromTime toTime : Option Nat)
    (actionType : Option String) (page : Int) (limit : Nat) : AuditResponse :=
  let filtered := db.filter (matchesFilters fromTime toTime actionType)
  match prismaFindManyPage (sortByCreatedDesc filtered)
      ((page - 1) * (limit : Int)) limit with
  | Except.error _ => AuditResponse.serverError 500 "Error fetching audit logs"
  | Except.ok logs =>
    AuditResponse.ok
      ⟨logs, filtered.length, page, limit, ceilPages filtered.length limit⟩

/-! ## Helper lemmas -/

lemma findUser_id_eq {db : List UserRec} {tid : Nat} {u : UserRec}
    (h : findUser db tid = some u) : u.id = tid := by
  have hp := List.find?_some h
  simpa using hp

lemma findUser_map_replace (db : List UserRec) (tid : Nat) (w : UserRec)
    (hw : w.id = tid) :
    findUser (db.map fun u => if u.id = tid then w else u) tid
      = (findUser db tid).map fun _ => w := by
  induction db with
  | nil => rfl
  | cons a l ih =>
    unfold findUser at ih ⊢
    by_cases h : a.id = tid
    · rw [List.map_cons, if_pos h,
        List.find?_cons_of_pos _ (by simp [hw]),
        List.find?_cons_of_pos _ (by simp [h])]
      rfl
    · rw [List.map_cons, if_neg h,
        List.find?_cons_of_neg _ (by simp [h]),
        List.find?_cons_of_neg _ (by simp [h])]
      exact ih

/-- When the role guard of the PUT handler is off, the handler never
changes the stored role of the target, whichever branch it takes. -/
lemma putUserHandler_role_preserved (hash : String → String)
    (db : List UserRec) (actor : UserRec) (targetId : Nat)
    (body : UpdateBody) (existingUser : UserRec)
    (hfind : findUser db targetId = some existingUser)
    (hguard : (body.role.isSome
        && (decide (actor.role = Role.admin)
            || (decide (actor.role = Role.moderator)
                && decide (existingUser.role = Role.user)))) = false) :
    Option.map UserRec.role
        (findUser (putUserHandler hash db actor targetId body).2 targetId)
      = some existingUser.role := by
  have hid : existingUser.id = targetId := findUser_id_eq hfind
  by_cases h1 : (truthy body.email && !(body.email.getD "").contains '@') = true
  · simp [putUserHandler, hfind, h1]
  · by_cases h2 : (truthy body.password && !validPassword (body.password.getD "")) = true
    · simp [putUserHandler, hfind, h1, h2]
    · simp only [putUserHandler, hfind, h1, h2, hguard, Bool.false_eq_true,
        if_false]
      rw [findUser_map_replace _ _ _ (by simp [applyUpdates, hid])]
      simp [hfind, applyUpdates]

lemma lookup_self : ∀ {d : List (String × Value)}, (d.map Prod.fst).Nodup →
    ∀ kv ∈ d, d.lookup kv.1 = some kv.2 := by
  intro d
  induction d with
  | nil => intro _ kv h; exact absurd h (List.not_mem_nil kv)
  | cons a l ih =>
    rintro hnodup kv hkv
    obtain ⟨k, v⟩ := a
    simp only [List.map_cons, List.nodup_cons] at hnodup
    rcases List.mem_cons.mp hkv with rfl | hmem
    · simp [List.lookup]
    · have hne : kv.1 ≠ k := fun he =>
        hnodup.1 (he ▸ List.mem_map_of_mem Prod.fst hmem)
      have hbe : (kv.1 == k) = false := beq_eq_false_iff_ne.mpr hne
      simp [List.lookup, hbe, ih hnodup.2 kv hmem]

/-- Diffing a record against itself yields no changes (JS object keys are
pairwise distinct). -/
lemma computeChanges_self {d : List (String × Value)}
    (h : (d.map Prod.fst).Nodup) : computeChanges d d = [] := by
  unfold computeChanges
  rw [List.filterMap_eq_nil_iff]
  intro kv hkv
  simp [lookup_self h kv hkv]

lemma length_sortByCreatedDesc (l : List AuditEntry) :
    (sortByCreatedDesc l).length = l.length :=
  List.length_insertionSort auditOrder l

lemma sorted_sortByCreatedDesc (l : List AuditEntry) :
    List.Sorted auditOrder (sortByCreatedDesc l) :=
  List.sorted_insertionSort auditOrder l

/-- `ceilPages t s` is the ceiling of `t / s` for `s ≥ 1`: the unique
number of pages with `t ≤ pages * s < t + s`. -/
lemma ceilPages_bounds {t s : Nat} (hs : 1 ≤ s) :
    t ≤ ceilPages t s * s ∧ ceilPages t s * s < t + s := by
  have h1 := Nat.div_add_mod (t + s - 1) s
  have h2 : (t + s - 1) % s < s := Nat.mod_lt _ hs
  unfold ceilPages
  rw [Nat.mul_comm]
  generalize hm : (t + s - 1) % s = m at h1 h2
  generalize hqs : s * ((t + s - 1) / s) = P at h1 ⊢
  omega

/-! ## Theorems -/

/-- C1 counterexample: a moderator editing itself and requesting role
admin is not answered with DENY("access denied") — the update succeeds
(200) with the role sub-request silently dropped, so the claimed decision
is wrong even though the stored role is unchanged. -/
theorem c1_counterexample :
    putPipeline id
      [⟨3, "Mo", "Der", "mod@x.com", "hash3", Role.moderator⟩]
      ⟨3, "Mo", "Der", "mod@x.com", "hash3", Role.moderator⟩ 3
      { first_name := some "New", role := some Role.admin }
    = (PutResult.ok "User updated successfully"
        ⟨3, "New", "Der", "mod@x.com", Role.moderator⟩,
       [⟨3, "New", "Der", "mod@x.com", "hash3", Role.moderator⟩])
    ∧ PutResult.ok "User updated successfully"
        ⟨3, "New", "Der", "mod@x.com", Role.moderator⟩
      ≠ PutResult.err 403 "Access denied" := by
  decide

/-- C1 (amended): a non-admin actor whose UPDATE carries a role
sub-request for moderator or admin can never change the target's stored
role; when the target is not the actor itself the request is denied with
403 "Access denied" and the store is untouched, and when the target is the
actor itself the role sub-request is silently dropped (the rest of the
update proceeds).  In particular no moderator can make anyone admin.
`hself` states that `req.user` is the actor's own stored row, which
`authenticate` guarantees by fetching it from the store. -/
theorem c1_nonadmin_cannot_escalate_role (hash : String → String)
    (db : List UserRec) (actor : UserRec) (targetId : Nat)
    (body : UpdateBody) (r : Role)
    (hactor : actor.role ≠ Role.admin)
    (hreq : body.role = some r)
    (hr : r = Role.moderator ∨ r = Role.admin)
    (hself : findUser db actor.id = some actor) :
    Option.map UserRec.role
        (findUser (putPipeline hash db actor targetId body).2 targetId)
      = Option.map UserRec.role (findUser db targetId)
    ∧ (targetId ≠ actor.id →
        (putPipeline hash db actor targetId body).1
          = PutResult.err 403 "Access denied"
        ∧ (putPipeline hash db actor targetId body).2 = db) := by
  by_cases hid : actor.id = targetId
  · have hfind : findUser db targetId = some actor := hid ▸ hself
    have hmw : checkUserPermissions db actor Method.PUT targetId
        = MwResult.next := by
      cases hrole : actor.role with
      | admin => exact absurd hrole hactor
      | moderator => simp [checkUserPermissions, hrole, hid]
      | user => simp [checkUserPermissions, hrole, hid]
    have hguard : (body.role.isSome
        && (decide (actor.role = Role.admin)
            || (decide (actor.role = Role.moderator)
                && decide (actor.role = Role.user)))) = false := by
      cases hrole : actor.role with
      | admin => exact absurd hrole hactor
      | moderator => simp [hrole]
      | user => simp [hrole]
    refine ⟨?_, fun hne => absurd hid.symm hne⟩
    simp only [putPipeline, hmw]
    rw [putUserHandler_role_preserved hash db actor targetId body actor
      hfind hguard, hfind]
    rfl
  · have hmw : checkUserPermissions db actor Method.PUT targetId
        = MwResult.deny 403 "Access denied" := by
      cases hrole : actor.role with
      | admin => exact absurd hrole hactor
      | moderator => simp [checkUserPermissions, hrole, hid]
      | user => simp [checkUserPermissions, hrole, hid]
    simp [putPipeline, hmw]

/-- C1 witness: a moderator targeting a basic user with a role sub-request
for admin is denied and the store is untouched. -/
theorem c1_nonadmin_cannot_escalate_role_witness :
    Option.map UserRec.role
        (findUser
          (putPipeline id
            [⟨3, "Mo", "Der", "mod@x.com", "hash3", Role.moderator⟩,
             ⟨4, "Us", "Er", "usr@x.com", "hash4", Role.user⟩]
            ⟨3, "Mo", "Der", "mod@x.com", "hash3", Role.moderator⟩ 4
            { role := some Role.admin }).2 4)
      = Option.map UserRec.role
          (findUser
            [⟨3, "Mo", "Der", "mod@x.com", "hash3", Role.moderator⟩,
             ⟨4, "Us", "Er", "usr@x.com", "hash4", Role.user⟩] 4)
    ∧ ((4 : Nat) ≠ 3 →
        (putPipeline id
          [⟨3, "Mo", "Der", "mod@x.com", "hash3", Role.moderator⟩,
           ⟨4, "Us", "Er", "usr@x.com", "hash4", Role.user⟩]
          ⟨3, "Mo", "Der", "mod@x.com", "hash3", Role.moderator⟩ 4
          { role := some Role.admin }).1
          = PutResult.err 403 "Access denied"
        ∧ (putPipeline id
            [⟨3, "Mo", "Der", "mod@x.com", "hash3", Role.moderator⟩,
             ⟨4, "Us", "Er", "usr@x.com", "hash4", Role.user⟩]
            ⟨3, "Mo", "Der", "mod@x.com", "hash3", Role.moderator⟩ 4
            { role := some Role.admin }).2
            = [⟨3, "Mo", "Der", "mod@x.com", "hash3", Role.moderator⟩,
               ⟨4, "Us", "Er", "usr@x.com", "hash4", Role.user⟩]) :=
  c1_nonadmin_cannot_escalate_role id
    [⟨3, "Mo", "Der", "mod@x.com", "hash3", Role.moderator⟩,
     ⟨4, "Us", "Er", "usr@x.com", "hash4", Role.user⟩]
    ⟨3, "Mo", "Der", "mod@x.com", "hash3", Role.moderator⟩ 4
    { role := some Role.admin } Role.admin
    (by decide) rfl (Or.inr rfl) (by decide)

/-- C2: the spec requires that an UPDATE carrying a role sub-request the
actor may not perform is denied in full; the code instead drops the role
change and applies the remaining fields.  Failing input: a basic user
updates itself with `{first_name: "Hacked", role: "admin"}` — the handler
answers 200, stores the new first name and keeps the role, rather than
denying the whole request. -/
theorem c2_denied_role_change_still_applies_other_fields :
    putPipeline id
      [⟨2, "Ba", "Sic", "u2@x.com", "hash2", Role.user⟩]
      ⟨2, "Ba", "Sic", "u2@x.com", "hash2", Role.user⟩ 2
      { first_name := some "Hacked", role := some Role.admin }
    = (PutResult.ok "User updated successfully"
        ⟨2, "Hacked", "Sic", "u2@x.com", Role.user⟩,
       [⟨2, "Hacked", "Sic", "u2@x.com", "hash2", Role.user⟩]) := by
  decide

/-- C3: claimed rule `moderator may update a target when the target's role
is user OR the target is the moderator itself`; the code's moderator branch
handles only DELETE and self-edit, so a moderator PUT on a basic user falls
through to the final `deny 403 "Access denied"` — contradicting the
comment directly above the branch ("Moderator can edit basic users and
their own details") and the repository's API docs.  This theorem evaluates
the middleware at the failing input. -/
theorem c3_moderator_update_basic_user_denied :
    checkUserPermissions
      [⟨4, "Us", "Er", "usr@x.com", "hash4", Role.user⟩]
      ⟨3, "Mo", "Der", "mod@x.com", "hash3", Role.moderator⟩
      Method.PUT 4
    = MwResult.deny 403 "Access denied" := by
  decide

/-- C4 counterexample: the claim says a basic-user actor always receives
DENY("basic users cannot delete accounts"), but for a non-self target the
code answers with the generic "Access denied" instead. -/
theorem c4_counterexample :
    checkUserPermissions
      [⟨4, "Us", "Er", "usr@x.com", "hash4", Role.user⟩]
      ⟨2, "Ba", "Sic", "u2@x.com", "hash2", Role.user⟩
      Method.DELETE 4
    = MwResult.deny 403 "Access denied"
    ∧ MwResult.deny 403 "Access denied"
      ≠ MwResult.deny 403 "Basic users cannot delete accounts" := by
  decide

/-- C4 (amended): the DELETE decision table of `checkUserPermissions` for a
resolved target: admin may delete any target except itself; moderator may
delete exactly the targets whose role is user; a basic user is always
denied, with reason "Basic users cannot delete accounts" only on
self-deletion and the generic "Access denied" on any other target. -/
theorem c4_delete_decision (db : List UserRec) (actor target : UserRec)
    (hfind : findUser db target.id = some target) :
    (actor.role = Role.admin →
      (target.id = actor.id →
        checkUserPermissions db actor Method.DELETE target.id
          = MwResult.deny 403 "Admins cannot delete their own account")
      ∧ (target.id ≠ actor.id →
          checkUserPermissions db actor Method.DELETE target.id
            = MwResult.next))
    ∧ (actor.role = Role.moderator →
        (target.role = Role.user →
          checkUserPermissions db actor Method.DELETE target.id
            = MwResult.next)
        ∧ (target.role ≠ Role.user →
            checkUserPermissions db actor Method.DELETE target.id
              = MwResult.deny 403 "Moderators can only delete basic users"))
    ∧ (actor.role = Role.user →
        (target.id = actor.id →
          checkUserPermissions db actor Method.DELETE target.id
            = MwResult.deny 403 "Basic users cannot delete accounts")
        ∧ (target.id ≠ actor.id →
            checkUserPermissions db actor Method.DELETE target.id
              = MwResult.deny 403 "Access denied")) := by
  refine ⟨fun ha => ⟨fun hid => ?_, fun hid => ?_⟩,
    fun ha => ⟨fun htr => ?_, fun htr => ?_⟩,
    fun ha => ⟨fun hid => ?_, fun hid => ?_⟩⟩
  · simp [checkUserPermissions, ha, hid.symm]
  · simp [checkUserPermissions, ha, Ne.symm hid]
  · simp [checkUserPermissions, ha, hfind, htr]
  · simp [checkUserPermissions, ha, hfind, htr]
  · simp [checkUserPermissions, ha, hid.symm]
  · simp [checkUserPermissions, ha, Ne.symm hid]

/-- C4 witness: the amended decision table applied to a moderator deleting
a basic user. -/
theorem c4_delete_decision_witness :
    checkUserPermissions
      [⟨4, "Us", "Er", "usr@x.com", "hash4", Role.user⟩]
      ⟨3, "Mo", "Der", "mod@x.com", "hash3", Role.moderator⟩
      Method.DELETE 4
    = MwResult.next :=
  ((c4_delete_decision
      [⟨4, "Us", "Er", "usr@x.com", "hash4", Role.user⟩]
      ⟨3, "Mo", "Der", "mod@x.com", "hash3", Role.moderator⟩
      ⟨4, "Us", "Er", "usr@x.com", "hash4", Role.user⟩
      (by decide)).2.1 rfl).1 rfl

/-- C8: in the single-user read, an admin or moderator actor gets any
resolved target; a basic-user actor gets exactly its own record and is
otherwise answered 403 "Access denied". -/
theorem c8_view_one_decision (db : List UserRec) (actor target : UserRec)
    (hfind : findUser db target.id = some target) :
    ((actor.role = Role.admin ∨ actor.role = Role.moderator) →
      getUserHandler db actor target.id = GetResult.ok target.toPublic)
    ∧ (actor.role = Role.user →
        (actor.id = target.id →
          getUserHandler db actor target.id = GetResult.ok target.toPublic)
        ∧ (actor.id ≠ target.id →
            getUserHandler db actor target.id
              = GetResult.err 403 "Access denied")) := by
  refine ⟨fun ha => ?_, fun ha => ⟨fun hid => ?_, fun hid => ?_⟩⟩
  · rcases ha with ha | ha <;> simp [getUserHandler, hfind, ha]
  · simp [getUserHandler, hfind, hid]
  · simp [getUserHandler, hfind, ha, hid]

/-- C8 witness: a moderator reading a basic user's record. -/
theorem c8_view_one_decision_witness :
    getUserHandler
      [⟨4, "Us", "Er", "usr@x.com", "hash4", Role.user⟩]
      ⟨3, "Mo", "Der", "mod@x.com", "hash3", Role.moderator⟩ 4
    = GetResult.ok ⟨4, "Us", "Er", "usr@x.com", Role.user⟩ :=
  (c8_view_one_decision
      [⟨4, "Us", "Er", "usr@x.com", "hash4", Role.user⟩]
      ⟨3, "Mo", "Der", "mod@x.com", "hash3", Role.moderator⟩
      ⟨4, "Us", "Er", "usr@x.com", "hash4", Role.user⟩
      (by decide)).1 (Or.inr rfl)

/-- C10: the single-user read checks existence before permissions: every
actor — including a basic user asking about someone else — gets 404
"User not found" on a missing id, while an existing-but-forbidden id gets
403, so the status code reveals whether the id exists. -/
theorem c10_existence_check_precedes_permission
    (db : List UserRec) (actor : UserRec) (targetId : Nat) :
    (findUser db targetId = none →
      getUserHandler db actor targetId = GetResult.err 404 "User not found")
    ∧ (∀ t, findUser db targetId = some t → actor.role = Role.user →
        actor.id ≠ targetId →
        getUserHandler db actor targetId
          = GetResult.err 403 "Access denied") := by
  refine ⟨fun hnone => ?_, fun t ht ha hid => ?_⟩
  · simp [getUserHandler, hnone]
  · simp [getUserHandler, ht, ha, hid]

/-- C10 witness: a basic user probing a missing id and an existing foreign
id. -/
theorem c10_existence_check_precedes_permission_witness :
    getUserHandler [⟨4, "Us", "Er", "usr@x.com", "hash4", Role.user⟩]
      ⟨2, "Ba", "Sic", "u2@x.com", "hash2", Role.user⟩ 9
      = GetResult.err 404 "User not found"
    ∧ getUserHandler [⟨4, "Us", "Er", "usr@x.com", "hash4", Role.user⟩]
        ⟨2, "Ba", "Sic", "u2@x.com", "hash2", Role.user⟩ 4
        = GetResult.err 403 "Access denied" :=
  ⟨(c10_existence_check_precedes_permission
      [⟨4, "Us", "Er", "usr@x.com", "hash4", Role.user⟩]
      ⟨2, "Ba", "Sic", "u2@x.com", "hash2", Role.user⟩ 9).1 (by decide),
   (c10_existence_check_precedes_permission
      [⟨4, "Us", "Er", "usr@x.com", "hash4", Role.user⟩]
      ⟨2, "Ba", "Sic", "u2@x.com", "hash2", Role.user⟩ 4).2
     ⟨4, "Us", "Er", "usr@x.com", "hash4", Role.user⟩
     (by decide) rfl (by decide)⟩

/-- C5: the edit diff of `logUserEdit` contains exactly one change per
field of the post-image whose value differs from the pre-image (with the
field name, old value and new value); diffing identical pre/post images
yields the empty change set, and then `logUserEdit` writes no EDIT_USER
entry at all. -/
theorem c5_noop_update_writes_no_audit
    (oldD newD d : List (String × Value)) (actorId targetId : Nat)
    (ip : Option String) (hd : (d.map Prod.fst).Nodup) :
    (∀ c : FieldChange, c ∈ computeChanges oldD newD ↔
      ((c.field, c.newValue) ∈ newD
        ∧ oldD.lookup c.field ≠ some c.newValue
        ∧ c.oldValue = oldD.lookup c.field))
    ∧ computeChanges d d = []
    ∧ logUserEdit actorId targetId d d ip = none := by
  refine ⟨fun c => ?_, computeChanges_self hd, ?_⟩
  · unfold computeChanges
    rw [List.mem_filterMap]
    constructor
    · rintro ⟨kv, hkv, hf⟩
      by_cases hc : oldD.lookup kv.1 = some kv.2
      · simp [hc] at hf
      · rw [if_neg hc] at hf
        obtain rfl := Option.some.inj hf
        exact ⟨by simpa using hkv, hc, rfl⟩
    · rintro ⟨hmem, hne, hold⟩
      obtain ⟨cf, cov, cnv⟩ := c
      refine ⟨(cf, cnv), hmem, ?_⟩
      simp only at hne hold
      rw [if_neg hne, hold]
  · unfold logUserEdit
    simp [computeChanges_self hd]

/-- C5 witness: a one-field record diffed against itself produces no
changes and no audit entry. -/
theorem c5_noop_update_writes_no_audit_witness :
    (([("email", Value.str "a@x.com")].map Prod.fst).Nodup)
    ∧ computeChanges [("email", Value.str "a@x.com")]
        [("email", Value.str "a@x.com")] = []
    ∧ logUserEdit 1 2 [("email", Value.str "a@x.com")]
        [("email", Value.str "a@x.com")] none = none :=
  ⟨by decide,
   (c5_noop_update_writes_no_audit [] []
      [("email", Value.str "a@x.com")] 1 2 none (by decide)).2.1,
   (c5_noop_update_writes_no_audit [] []
      [("email", Value.str "a@x.com")] 1 2 none (by decide)).2.2⟩

/-- C9: the two login failure runs — unknown email, and known email with a
wrong password — both answer 401 "Invalid credentials", so the responses
are equal and the caller cannot tell from them whether the email has an
account. -/
theorem c9_login_failures_indistinguishable
    (cmp₁ cmp₂ : String → String → Bool) (db₁ db₂ : List UserRec)
    (e₁ p₁ e₂ p₂ : String) (u : UserRec)
    (h₁ : findByEmail db₁ e₁ = none)
    (h₂ : findByEmail db₂ e₂ = some u)
    (h₃ : cmp₂ p₂ u.password = false) :
    loginHandler cmp₁ db₁ e₁ p₁
      = LoginResult.failure 401 "Invalid credentials"
    ∧ loginHandler cmp₂ db₂ e₂ p₂
        = LoginResult.failure 401 "Invalid credentials"
    ∧ loginHandler cmp₁ db₁ e₁ p₁ = loginHandler cmp₂ db₂ e₂ p₂ := by
  refine ⟨?_, ?_, ?_⟩ <;> simp [loginHandler, h₁, h₂, h₃]

/-- C9 witness: a concrete store with one account; unknown email versus
wrong password. -/
theorem c9_login_failures_indistinguishable_witness :
    loginHandler (fun _ _ => false)
      [⟨2, "Ba", "Sic", "u2@x.com", "hash2", Role.user⟩] "nobody@x.com" "pw"
      = LoginResult.failure 401 "Invalid credentials"
    ∧ loginHandler (fun _ _ => false)
        [⟨2, "Ba", "Sic", "u2@x.com", "hash2", Role.user⟩] "u2@x.com" "bad"
        = LoginResult.failure 401 "Invalid credentials"
    ∧ loginHandler (fun _ _ => false)
        [⟨2, "Ba", "Sic", "u2@x.com", "hash2", Role.user⟩] "nobody@x.com" "pw"
        = loginHandler (fun _ _ => false)
            [⟨2, "Ba", "Sic", "u2@x.com", "hash2", Role.user⟩] "u2@x.com" "bad" :=
  c9_login_failures_indistinguishable
    (fun _ _ => false) (fun _ _ => false)
    [⟨2, "Ba", "Sic", "u2@x.com", "hash2", Role.user⟩]
    [⟨2, "Ba", "Sic", "u2@x.com", "hash2", Role.user⟩]
    "nobody@x.com" "pw" "u2@x.com" "bad"
    ⟨2, "Ba", "Sic", "u2@x.com", "hash2", Role.user⟩
    (by decide) (by decide) rfl

/-- A sample audit store of 25 rows with increasing ids and timestamps,
matching the spec's pagination example. -/
def sampleAuditDb : List AuditEntry :=
  (List.range 25).map fun i =>
    ⟨i + 1, 1, "LOGIN_SUCCESS", none, Metadata.empty, none, 1000 + i⟩

/-- C6 counterexample: for a page number below 1 the handler does not
return an empty page — the negative `skip` makes the store query throw,
which the handler's catch turns into a 500 response (here at page 0 on the
25-entry store from the spec's own example). -/
theorem c6_counterexample :
    getAuditLogs sampleAuditDb none none none 0 20
      = AuditResponse.serverError 500 "Error fetching audit logs"
    ∧ AuditResponse.serverError 500 "Error fetching audit logs"
      ≠ AuditResponse.ok ⟨[], 25, 0, 20, 2⟩ := by
  decide

/-- C6 (amended): for every query with page `p ≥ 1` and page size `s ≥ 1`
the handler returns 200 with `total` the number of matching entries,
`pages = ceil(total/s)` (characterised by `total ≤ pages*s < total + s`),
the page being entries `(p-1)*s+1 .. min(p*s, total)` of the ordered
result, and an empty list with accurate totals whenever `p > pages`; a
page number below 1, however, produces a 500 error response (see the
counterexample), not an empty list. -/
theorem c6_pagination (db : List AuditEntry) (fromTime toTime : Option Nat)
    (actionType : Option String) (p s : Nat) (hp : 1 ≤ p) (hs : 1 ≤ s) :
    ∃ r, getAuditLogs db fromTime toTime actionType (p : Int) s
        = AuditResponse.ok r
      ∧ r.total
          = (db.filter (matchesFilters fromTime toTime actionType)).length
      ∧ r.pages = ceilPages r.total s
      ∧ r.total ≤ r.pages * s
      ∧ r.pages * s < r.total + s
      ∧ r.logs.length = min s (r.total - (p - 1) * s)
      ∧ (∀ i, i < s →
          r.logs[i]?
            = (sortByCreatedDesc
                (db.filter
                  (matchesFilters fromTime toTime actionType)))[(p - 1) * s + i]?)
      ∧ (r.pages < p → r.logs = []) := by
  have hcast : ((p : Int) - 1) * (s : Int) = (((p - 1) * s : Nat) : Int) := by
    push_cast [Nat.cast_sub hp]
    ring
  have hpage : prismaFindManyPage
      (sortByCreatedDesc (db.filter (matchesFilters fromTime toTime actionType)))
      (((p : Int) - 1) * (s : Int)) s
      = Except.ok
          (((sortByCreatedDesc
              (db.filter (matchesFilters fromTime toTime actionType))).drop
            ((p - 1) * s)).take s) := by
    unfold prismaFindManyPage
    rw [if_neg (by rw [hcast]; exact Int.not_lt.mpr (Int.natCast_nonneg _)),
      hcast, Int.toNat_natCast]
  refine ⟨⟨((sortByCreatedDesc
      (db.filter (matchesFilters fromTime toTime actionType))).drop
        ((p - 1) * s)).take s,
    (db.filter (matchesFilters fromTime toTime actionType)).length,
    (p : Int), s,
    ceilPages (db.filter (matchesFilters fromTime toTime actionType)).length s⟩,
    ?_, rfl, rfl, (ceilPages_bounds hs).1, (ceilPages_bounds hs).2, ?_, ?_, ?_⟩
  · unfold getAuditLogs
    dsimp only
    rw [hpage]
  · dsimp only
    rw [List.length_take, List.length_drop, length_sortByCreatedDesc]
  · intro i hi
    dsimp only
    rw [List.getElem?_take, if_pos hi, List.getElem?_drop]
  · dsimp only
    intro hlt
    have h1 := (ceilPages_bounds
      (t := (db.filter (matchesFilters fromTime toTime actionType)).length) hs).1
    have h2 : ceilPages
        (db.filter (matchesFilters fromTime toTime actionType)).length s * s
        ≤ (p - 1) * s :=
      Nat.mul_le_mul_right s (by omega)
    rw [List.drop_eq_nil_of_le (by rw [length_sortByCreatedDesc]; omega)]
    simp

/-- C6 witness: the spec's own example — 25 entries, page size 20,
page 3 — yields an empty page with `total = 25` and `pages = 2`. -/
theorem c6_pagination_witness :
    (∃ r, getAuditLogs sampleAuditDb none none none ((3 : Nat) : Int) 20
        = AuditResponse.ok r
      ∧ r.total = (sampleAuditDb.filter (matchesFilters none none none)).length
      ∧ r.pages = ceilPages r.total 20
      ∧ r.total ≤ r.pages * 20
      ∧ r.pages * 20 < r.total + 20
      ∧ r.logs.length = min 20 (r.total - (3 - 1) * 20)
      ∧ (∀ i, i < 20 →
          r.logs[i]?
            = (sortByCreatedDesc
                (sampleAuditDb.filter
                  (matchesFilters none none none)))[(3 - 1) * 20 + i]?)
      ∧ (r.pages < 3 → r.logs = []))
    ∧ getAuditLogs sampleAuditDb none none none ((3 : Nat) : Int) 20
        = AuditResponse.ok ⟨[], 25, 3, 20, 2⟩ :=
  ⟨c6_pagination sampleAuditDb none none none 3 20 (by decide) (by decide),
   by decide⟩

/-- Modelled from the spec: the claimed result order "strictly descending
by createdAt, ties broken by descending id" as a Boolean check on adjacent
entries (strictly decreasing under the lexicographic (createdAt, id)
comparison, newest first). -/
def specNewestFirst : List AuditEntry → Bool
  | [] => true
  | [_] => true
  | a :: b :: rest =>
    (decide (b.created_at < a.created_at)
      || (b.created_at == a.created_at && decide (b.id < a.id)))
      && specNewestFirst (b :: rest)

/-- C7 counterexample: two entries sharing `created_at` inserted with
increasing ids come back in insertion order (ascending id), because the
query orders only by `created_at desc` with no id tie-break — so the
claimed strict descending (createdAt, id) order is violated. -/
theorem c7_counterexample :
    getAuditLogs
      [⟨1, 1, "LOGOUT", none, Metadata.empty, none, 100⟩,
       ⟨2, 1, "LOGOUT", none, Metadata.empty, none, 100⟩]
      none none none 1 20
      = AuditResponse.ok
          ⟨[⟨1, 1, "LOGOUT", none, Metadata.empty, none, 100⟩,
            ⟨2, 1, "LOGOUT", none, Metadata.empty, none, 100⟩], 2, 1, 20, 1⟩
    ∧ specNewestFirst
        [⟨1, 1, "LOGOUT", none, Metadata.empty, none, 100⟩,
         ⟨2, 1, "LOGOUT", none, Metadata.empty, none, 100⟩] = false := by
  decide

/-- C7 (amended): every page the audit-log query returns is ordered
non-increasingly by `createdAt` (newest first); the order among entries
with equal `createdAt` is not specified by the query (no id tie-break), so
the claimed strictness/determinism does not hold. -/
theorem c7_query_order (db : List AuditEntry) (fromTime toTime : Option Nat)
    (actionType : Option String) (page : Int) (limit : Nat)
    (r : AuditQueryResult)
    (h : getAuditLogs db fromTime toTime actionType page limit
        = AuditResponse.ok r) :
    List.Sorted auditOrder r.logs := by
  unfold getAuditLogs at h
  dsimp only at h
  by_cases hneg : (page - 1) * (limit : Int) < 0
  · rw [show prismaFindManyPage
        (sortByCreatedDesc
          (db.filter (matchesFilters fromTime toTime actionType)))
        ((page - 1) * (limit : Int)) limit
        = Except.error "validation error: skip must not be negative" from by
      unfold prismaFindManyPage
      rw [if_pos hneg]] at h
    exact AuditResponse.noConfusion h
  · rw [show prismaFindManyPage
        (sortByCreatedDesc
          (db.filter (matchesFilters fromTime toTime actionType)))
        ((page - 1) * (limit : Int)) limit
        = Except.ok
            (((sortByCreatedDesc
                (db.filter (matchesFilters fromTime toTime actionType))).drop
              ((page - 1) * (limit : Int)).toNat).take limit) from by
      unfold prismaFindManyPage
      rw [if_neg hneg]] at h
    dsimp only at h
    obtain rfl := (AuditResponse.ok.inj h).symm
    exact List.Pairwise.sublist
      ((List.take_sublist _ _).trans (List.drop_sublist _ _))
      (sorted_sortByCreatedDesc _)

/-- C7 witness: the returned page for the two tied entries is ordered
non-increasingly by `createdAt`. -/
theorem c7_query_order_witness :
    List.Sorted auditOrder
      (AuditQueryResult.mk
        [⟨1, 1, "LOGOUT", none, Metadata.empty, none, 100⟩,
         ⟨2, 1, "LOGOUT", none, Metadata.empty, none, 100⟩] 2 1 20 1).logs :=
  c7_query_order
    [⟨1, 1, "LOGOUT", none, Metadata.empty, none, 100⟩,
     ⟨2, 1, "LOGOUT", none, Metadata.empty, none, 100⟩]
    none none none 1 20
    ⟨[⟨1, 1, "LOGOUT", none, Metadata.empty, none, 100⟩,
      ⟨2, 1, "LOGOUT", none, Metadata.empty, none, 100⟩], 2, 1, 20, 1⟩
    (by decide)

end Config2Page
